import Mathlib

/-!
Verification development for the bulletin generator core.

Shallow embedding of the season/rule engine (`bulletin/logic/rules.py`),
the psalm reference resolver (`bulletin/sources/psalms.py`), the scripture
verse tokenizer (`bulletin/document/formatting.py`) and the 9am music grid
extractor (`bulletin/sources/music_9am.py`).

Conventions of the embedding:
- Python strings are `String` / `List Char`; character classes of the
  regular expressions are modelled over their ASCII content (the regex
  class `\d` is `Char.isDigit`, `\s` is `py_is_space`, covering the ASCII
  whitespace characters Python treats as `\s`); the inputs handled by the
  program (citation strings, sheet cells, scripture prose) are ASCII.
- Python `None` returns and raised exceptions of fallible operations are
  both `Option.none` where the code treats them as a failure result; each
  definition notes which.
- Greedy regex scanning is unfolded into the deterministic character
  scanners it denotes on these patterns (no backtracking is observable for
  them; where backtracking is observable it is modelled explicitly).
-/

namespace Bulletin

/-! ### Small Python string primitives -/

/-- Python regex class `\s` on ASCII: space, tab, newline, carriage return,
vertical tab, form feed. -/
def py_is_space (c : Char) : Bool :=
  c = ' ' || c = '\t' || c = '\n' || c = '\r' || c = '\x0b' || c = '\x0c'

/-- Python `str.strip()` on a character list. -/
def py_strip (t : List Char) : List Char :=
  ((t.dropWhile py_is_space).reverse.dropWhile py_is_space).reverse

/-- Python `str.strip()` on a `String`. -/
def py_strip_s (s : String) : String :=
  String.mk (py_strip s.data)

/-- Python `str.rstrip(chars)`: drop the maximal trailing run of characters
satisfying `p`. -/
def py_rstrip (p : Char → Bool) (t : List Char) : List Char :=
  (t.reverse.dropWhile p).reverse

/-- Python `str.lower()` (ASCII content). -/
def py_lower (s : String) : String :=
  String.mk (s.data.map Char.toLower)

/-- Whether `hay` begins with `need` (Python `str.startswith`). -/
def starts_list : List Char → List Char → Bool
  | [], _ => true
  | _ :: _, [] => false
  | a :: as, b :: bs => a == b && starts_list as bs

/-- Whether `need` occurs as a contiguous substring of `hay`
(Python `in` on strings). -/
def has_sub (need : List Char) : List Char → Bool
  | [] => need.isEmpty
  | c :: t => starts_list need (c :: t) || has_sub need t

/-- Python `needle in hay` for strings. -/
def contains_s (hay need : String) : Bool :=
  has_sub need.data hay.data

/-- Python `s.startswith(pre)` for strings. -/
def starts_s (s pre : String) : Bool :=
  starts_list pre.data s.data

/-- Python `int()` on a nonempty decimal digit string. -/
def digits_to_nat (ds : List Char) : Nat :=
  ds.foldl (fun n c => n * 10 + (c.toNat - '0'.toNat)) 0

/-- First `some` of a list of options (used for format fallback loops). -/
def first_some : List (Option α) → Option α
  | [] => none
  | some x :: _ => some x
  | none :: rest => first_some rest

/-! ### Psalm reference parsing (`bulletin/sources/psalms.py`)

`parse_psalm_reference` first deletes a trailing rubric with
`re.sub(r"\s*[\(]?(?:responsively|in unison|read .*|antiphonally)[\)]?.*$", "", reference, flags=re.IGNORECASE)`
and then matches `re.match(r"Psalm\s+(\d+)(?::(.+))?", ref_clean.strip())`.
-/

/-- Case-insensitive literal prefix: drop `pat` (given lowercase) from the
front of `t`, comparing lowercased characters (`re.IGNORECASE`). -/
def ci_drop : List Char → List Char → Option (List Char)
  | [], t => some t
  | _ :: _, [] => none
  | p :: ps, c :: cs => if p.toLower = c.toLower then ci_drop ps cs else none

/-- Given the suffix of the subject that follows a rubric keyword, whether
the remaining pattern `[\)]?.*$` can match to the end of the subject:
`.` never matches a newline and `$` also matches just before a final
newline, so the suffix must be newline-free except possibly for one final
newline. -/
def tail_ok (t : List Char) : Bool :=
  t.count '\n' == 0 || (t.getLast? == some '\n' && t.dropLast.count '\n' == 0)

/-- Whether the rubric pattern matches starting exactly at the head of `t`:
`\s*` takes the maximal whitespace run (no alternative start is possible
because every alternation branch starts with a non-whitespace character),
then an optional `(`, then one of the alternation keywords
(`read .*` reduces to the keyword `"read "` followed by a `tail_ok`
suffix). -/
def rubric_match_at (t : List Char) : Bool :=
  let r := t.dropWhile py_is_space
  let r2 := match r with
    | '(' :: rest => rest
    | _ => r
  ["responsively", "in unison", "read ", "antiphonally"].any fun kw =>
    match ci_drop kw.data r2 with
    | some rest => tail_ok rest
    | none => false

/-- Leftmost index at which the rubric pattern matches (`re.sub` replaces
the leftmost match; a second match can never follow it, see
`strip_rubric`). -/
def least_rubric_idx (t : List Char) : Option Nat :=
  if rubric_match_at t then some 0
  else
    match t with
    | [] => none
    | _ :: ts => (least_rubric_idx ts).map (· + 1)

/-- The `re.sub` call deleting a trailing rubric clause.  The matched span
runs from the leftmost match position to the end of the string, except
that a single final newline is left in place (the `.*$` part of the
pattern stops just before it). -/
def strip_rubric (s : String) : String :=
  match least_rubric_idx s.data with
  | none => s
  | some i =>
    let t := s.data.drop i
    String.mk (s.data.take i ++ (if t.getLast? = some '\n' then ['\n'] else []))

/-- The part of the header match after the literal `Psalm`: `\s+` (one or
more whitespace characters), `(\d+)` (group 1), then optionally a colon
followed by at least one non-newline character; group 2 is the maximal
non-newline run after the colon. -/
def header_after (rest : List Char) : Option (List Char × Option (List Char)) :=
  if (rest.takeWhile py_is_space).isEmpty then none
  else if ((rest.dropWhile py_is_space).takeWhile Char.isDigit).isEmpty then none
  else
    match (rest.dropWhile py_is_space).dropWhile Char.isDigit with
    | ':' :: v =>
      some ((rest.dropWhile py_is_space).takeWhile Char.isDigit,
        if (v.takeWhile fun c => ¬ c = '\n').isEmpty then none
        else some (v.takeWhile fun c => ¬ c = '\n'))
    | _ => some ((rest.dropWhile py_is_space).takeWhile Char.isDigit, none)

/-- The anchored match `re.match(r"Psalm\s+(\d+)(?::(.+))?", t)`: the
literal `Psalm` at the start, then `header_after` on what follows.
Characters after the match are ignored (`re.match` is not anchored at the
end).  Returns `(group 1, group 2)` on success. -/
def match_psalm_header (t : List Char) : Option (List Char × Option (List Char)) :=
  if starts_list "Psalm".data t then header_after (t.drop 5) else none

/-- Suffix letter class `[a-c]`. -/
def is_abc (c : Char) : Bool :=
  c = 'a' || c = 'b' || c = 'c'

/-- The splitting loop of `re.split(r",\s*", verse_part)`: fields are
separated by a comma together with the maximal whitespace run that follows
it.  `fuel` only bounds the recursion (every step consumes at least one
character, and every call keeps `fuel` at least the list length, so it is
never exhausted). -/
def split_comma_ws_f : Nat → List Char → List (List Char)
  | 0, _ => [[]]
  | _ + 1, [] => [[]]
  | fuel + 1, c :: rest =>
    if c = ',' then [] :: split_comma_ws_f fuel (rest.dropWhile py_is_space)
    else
      match split_comma_ws_f fuel rest with
      | [] => [[c]]
      | f :: fs => (c :: f) :: fs

/-- The `re.split(r",\s*", verse_part)` call. -/
def split_comma_ws (t : List Char) : List (List Char) :=
  split_comma_ws_f t.length t

/-- Shared tail of the range match `-(\d+)([a-c])?` after the dash: one or
more digits then an optional suffix letter; trailing junk is ignored. -/
def range_end (ds : List Char) (s1 : Option Char) (r : List Char) :
    Option (Nat × Option Char × Nat × Option Char) :=
  let ds2 := r.takeWhile Char.isDigit
  if ds2.isEmpty then none
  else
    let s2 := match r.drop ds2.length with
      | c :: _ => if is_abc c then some c else none
      | [] => none
    some (digits_to_nat ds, s1, digits_to_nat ds2, s2)

/-- The anchored match `re.match(r"(\d+)([a-c])?-(\d+)([a-c])?", segment)`.
After the greedy digit run, an optional suffix letter is taken only when a
dash follows it (the only observable backtracking of this pattern);
trailing junk after the match is ignored. -/
def range_parse (s : List Char) : Option (Nat × Option Char × Nat × Option Char) :=
  let ds := s.takeWhile Char.isDigit
  if ds.isEmpty then none
  else
    match s.drop ds.length with
    | c :: rest =>
      if is_abc c then
        match rest with
        | '-' :: r2 => range_end ds (some c) r2
        | _ => none
      else if c = '-' then range_end ds none rest
      else none
    | [] => none

/-- The anchored match `re.match(r"(\d+)([a-c])?", segment)`: one or more
digits then an optional suffix letter; trailing junk is ignored. -/
def single_parse (s : List Char) : Option (Nat × Option Char) :=
  let ds := s.takeWhile Char.isDigit
  if ds.isEmpty then none
  else
    some (digits_to_nat ds,
      match s.drop ds.length with
      | c :: _ => if is_abc c then some c else none
      | [] => none)

/-- Range expansion: `for v in range(start, end + 1)` appending
`(v, suffix)` where the start suffix is used at `v == start`, else the end
suffix at `v == end`, else no suffix. -/
def expand_range (st : Nat) (s1 : Option Char) (en : Nat) (s2 : Option Char) :
    List (Nat × Option Char) :=
  (List.range' st (en + 1 - st)).map fun v =>
    (v, if v = st ∧ s1.isSome then s1
        else if v = en ∧ s2.isSome then s2
        else none)

/-- One loop iteration over a comma-separated segment: strip it, try the
range pattern, then the single-verse pattern; a segment matching neither
contributes nothing (it is skipped silently). -/
def parse_segment (seg0 : List Char) : List (Nat × Option Char) :=
  let seg := py_strip seg0
  match range_parse seg with
  | some (st, s1, en, s2) => expand_range st s1 en s2
  | none =>
    match single_parse seg with
    | some p => [p]
    | none => []

/-- The verse-spec loop of `parse_psalm_reference` over
`re.split(r",\s*", verse_part.strip())`. -/
def parse_verse_part (vp : List Char) : List (Nat × Option Char) :=
  ((split_comma_ws (py_strip vp)).map parse_segment).flatten

/-- The body of `parse_psalm_reference` after rubric stripping: `none`
models the raised `ValueError` when the header regex does not match; an
absent or empty verse part yields the empty spec list (entire psalm). -/
def parse_reference_core (cleaned : String) :
    Option (Nat × List (Nat × Option Char)) :=
  match match_psalm_header (py_strip cleaned.data) with
  | none => none
  | some (ds, vp?) =>
    match vp? with
    | none => some (digits_to_nat ds, [])
    | some vp => some (digits_to_nat ds, parse_verse_part vp)

/-- `parse_psalm_reference` from `bulletin/sources/psalms.py`. -/
def parse_psalm_reference (reference : String) :
    Option (Nat × List (Nat × Option Char)) :=
  parse_reference_core (strip_rubric reference)

/-- The grammar `Psalm <whitespace> <digits>` at the head of the string:
the shape the spec calls `"Psalm <integer>[:<verse-spec>]"` requires at
minimum.  Used to state what `parse_reference_core` accepts. -/
def HeaderShape (t : List Char) : Prop :=
  ∃ w d r, t = "Psalm".data ++ w ++ d ++ r ∧ w ≠ [] ∧
    (∀ c ∈ w, py_is_space c = true) ∧ d ≠ [] ∧ (∀ c ∈ d, c.isDigit = true)

/-! ### Psalm lookup (`get_psalm`)

The psalter corpus (`psalms.yaml`) is data, not code: it is modelled as an
abstract finite map from psalm number to its entry, passed explicitly.
-/

/-- One corpus entry for a verse: `{"first_half": ..., "second_half": [...]}`. -/
structure PsalmVerseData where
  first_half : String
  second_half : List String
deriving DecidableEq, Repr

/-- One corpus entry for a psalm: its Latin incipit and its verse map. -/
structure PsalmData where
  latin : String
  verses : List (Nat × PsalmVerseData)
deriving DecidableEq, Repr

/-- A single psalm verse with its half-verse components (dataclass
`PsalmVerse`). -/
structure PsalmVerse where
  number : Nat
  first_half : String
  second_half : List String
deriving DecidableEq, Repr

/-- A selection of psalm verses for bulletin rendering (dataclass
`PsalmSelection`). -/
structure PsalmSelection where
  psalm_number : Nat
  latin : String
  verses : List PsalmVerse
deriving DecidableEq, Repr

/-- Python `all_verses.get(vnum)`. -/
def lookup_verse (verses : List (Nat × PsalmVerseData)) (vnum : Nat) :
    Option PsalmVerseData :=
  List.lookup vnum verses

/-- The suffix branch of the selection loop of `get_psalm`:
`"a"` keeps the first half only, `"b"` keeps `second_half[:1]`,
`"c"` keeps `second_half[1:] or second_half`, no suffix keeps the whole
verse. -/
def render_verse (vnum : Nat) (sfx : Option Char) (v : PsalmVerseData) : PsalmVerse :=
  if sfx = some 'a' then ⟨vnum, v.first_half, []⟩
  else if sfx = some 'b' then ⟨vnum, "", v.second_half.take 1⟩
  else if sfx = some 'c' then
    ⟨vnum, "", if (v.second_half.drop 1).isEmpty then v.second_half
               else v.second_half.drop 1⟩
  else ⟨vnum, v.first_half, v.second_half⟩

/-- The selection loop of `get_psalm` over the parsed verse specs: a verse
number absent from the corpus is skipped silently (`continue`). -/
def select_verses (verses : List (Nat × PsalmVerseData)) :
    List (Nat × Option Char) → List PsalmVerse
  | [] => []
  | (vnum, sfx) :: rest =>
    match lookup_verse verses vnum with
    | none => select_verses verses rest
    | some v => render_verse vnum sfx v :: select_verses verses rest

/-- Insertion step for `sorted(all_verses.items())` (keys are distinct, so
sorting by key models the Python tuple sort). -/
def insert_by_key (p : Nat × PsalmVerseData) :
    List (Nat × PsalmVerseData) → List (Nat × PsalmVerseData)
  | [] => [p]
  | q :: rest => if p.1 ≤ q.1 then p :: q :: rest else q :: insert_by_key p rest

/-- `sorted(all_verses.items())`. -/
def sort_by_key (l : List (Nat × PsalmVerseData)) : List (Nat × PsalmVerseData) :=
  l.foldr insert_by_key []

/-- `get_psalm` from `bulletin/sources/psalms.py` over an abstract corpus;
`none` models the raised `ValueError` (unparsable reference, or psalm
number absent from the corpus). -/
def get_psalm (corpus : Nat → Option PsalmData) (reference : String) :
    Option PsalmSelection :=
  match parse_psalm_reference reference with
  | none => none
  | some (num, specs) =>
    match corpus num with
    | none => none
    | some pd =>
      let selected :=
        if specs.isEmpty then
          (sort_by_key pd.verses).map fun p => ⟨p.1, p.2.first_half, p.2.second_half⟩
        else select_verses pd.verses specs
      some ⟨num, pd.latin, selected⟩

/-- An empty psalter corpus (fixture for the counterexample to the claim
that psalm-number misses are non-fatal). -/
def empty_corpus : Nat → Option PsalmData := fun _ => none

/-- A one-psalm fixture corpus: psalm 23 with a single verse 1. -/
def corpus23 : Nat → Option PsalmData := fun n =>
  if n = 23 then
    some ⟨"Dominus regit me",
          [(1, ⟨"The LORD is my shepherd;", ["I shall not be in want."]⟩)]⟩
  else none

/-! ### Seasonal rules engine (`bulletin/logic/rules.py`) -/

/-- The dismissal numbered `"3"`, the fallback of `DISMISSALS.get`. -/
def dismissal3 : String × String :=
  ("Let us go forth into the world, rejoicing in the power of the Spirit.",
   "Thanks be to God.")

/-- The `DISMISSALS` table (BCP p.366, numbered 1-4 in order). -/
def DISMISSALS : List (String × (String × String)) :=
  [("1", ("Let us go forth in the name of Christ.", "Thanks be to God.")),
   ("2", ("Go in peace to love and serve the Lord.", "Thanks be to God.")),
   ("3", dismissal3),
   ("4", ("Let us bless the Lord.", "Thanks be to God."))]

/-- Python `s.rstrip(".")`. -/
def rstrip_dot (s : String) : String :=
  String.mk (py_rstrip (fun c => c = '.') s.data)

/-- `get_dismissal_text`: look the number up (falling back to dismissal 3)
and, during the Easter season, strip the trailing periods of both lines
and append `". Alleluia, alleluia."`. -/
def get_dismissal_text (dismissal_num : String) (has_alleluia : Bool) :
    String × String :=
  let base := (List.lookup dismissal_num DISMISSALS).getD dismissal3
  if has_alleluia then
    (rstrip_dot base.1 ++ ". Alleluia, alleluia.",
     rstrip_dot base.2 ++ ". Alleluia, alleluia.")
  else base

/-- A later-stage reading of the operation the spec describes: replace one
trailing period with the replacement text. -/
def replace_trailing_period (s repl : String) : String :=
  if s.data.getLast? = some '.' then String.mk s.data.dropLast ++ repl
  else s ++ repl

/-- `_detect_season`: ordered case-insensitive substring tests on the
title, then the color fallback.  `notes` is accepted and unused, exactly
as in the source. -/
def detect_season (title color notes : String) : String :=
  let t := py_lower title
  if contains_s t "advent" then "advent"
  else if contains_s t "christmas" || contains_s t "christmastide" then "christmas"
  else if contains_s t "epiphany" then "epiphany"
  else if contains_s t "ash wednesday" then "lent"
  else if contains_s t "lent" then "lent"
  else if contains_s t "palm sunday" || contains_s t "passion" then "lent"
  else if contains_s t "maundy" || contains_s t "good friday" then "lent"
  else if contains_s t "holy saturday" then "lent"
  else if contains_s t "easter" then "easter"
  else if contains_s t "ascension" then "easter"
  else if contains_s t "pentecost" && !contains_s t "after" then "pentecost_day"
  else if contains_s t "trinity" then "ordinary"
  else if contains_s t "proper" then "ordinary"
  else if contains_s t "pentecost" then "ordinary"
  else if py_lower color = "violet" ∨ py_lower color = "purple" then "lent"
  else if py_lower color = "red" then "pentecost_day"
  else "ordinary"

/-- The classifier of the spec, stated its way: one ordered table of
(predicate, season) rules over the lowercased title, evaluated with fixed
precedence. -/
def season_rule_table : List ((String → Bool) × String) :=
  [(fun t => contains_s t "advent", "advent"),
   (fun t => contains_s t "christmas" || contains_s t "christmastide", "christmas"),
   (fun t => contains_s t "epiphany", "epiphany"),
   (fun t => contains_s t "ash wednesday", "lent"),
   (fun t => contains_s t "lent", "lent"),
   (fun t => contains_s t "palm sunday" || contains_s t "passion", "lent"),
   (fun t => contains_s t "maundy" || contains_s t "good friday", "lent"),
   (fun t => contains_s t "holy saturday", "lent"),
   (fun t => contains_s t "easter", "easter"),
   (fun t => contains_s t "ascension", "easter"),
   (fun t => contains_s t "pentecost" && !contains_s t "after", "pentecost_day"),
   (fun t => contains_s t "trinity", "ordinary"),
   (fun t => contains_s t "proper", "ordinary"),
   (fun t => contains_s t "pentecost", "ordinary")]

/-- First matching rule of an ordered rule table, with a default. -/
def first_rule (t : String) : List ((String → Bool) × String) → String → String
  | [], dflt => dflt
  | (p, r) :: rest, dflt => if p t then r else first_rule t rest dflt

/-- The color fallback of the spec: violet/purple give lent, red gives
pentecost day, anything else ordinary time. -/
def color_fallback (color : String) : String :=
  if py_lower color = "violet" ∨ py_lower color = "purple" then "lent"
  else if py_lower color = "red" then "pentecost_day"
  else "ordinary"

/-- The season classifier as the spec states it: the ordered keyword rule
table over the lowercased title, falling back on the color. -/
def season_spec (title color : String) : String :=
  first_rule (py_lower title) season_rule_table (color_fallback color)

/-- The closed set of season tags. -/
def season_tags : List String :=
  ["advent", "christmas", "epiphany", "lent", "easter", "pentecost_day", "ordinary"]

/-- `_is_in_easter_season`: Easter Day through the Day of Pentecost. -/
def is_in_easter_season (season : String) : Bool :=
  season = "easter" || season = "pentecost_day"

/-- `_is_lent`. -/
def is_lent_season (season : String) : Bool :=
  season = "lent"

/-- `_is_lent_1`: First Sunday in Lent (Decalogue).  The second disjunct
searches for the needle `"lent 1"` - space included, exactly as written in
the source - inside `title_lower.replace(" ", "")`, a string from which
every space has just been removed, so that disjunct can never be true and
only the `"first sunday"`-and-`"lent"` test decides. -/
def is_lent_1 (title : String) : Bool :=
  let t := py_lower title
  (contains_s t "first sunday" && contains_s t "lent") ||
    contains_s (String.mk (t.data.filter fun c => ¬ c = ' ')) "lent 1"

/-- `_pop_has_confession`: the POP form has a built-in confession when the
combined form/notes text mentions it. -/
def pop_has_confession_fn (pop_form notes : String) : Bool :=
  let combined := py_lower (pop_form ++ " " ++ notes)
  contains_s combined "w/ confession" || contains_s combined "with confession"

/-- `_is_holy_week`. -/
def is_holy_week (title : String) : Bool :=
  let t := py_lower title
  contains_s t "palm sunday" || contains_s t "passion" || contains_s t "maundy" ||
    contains_s t "good friday" || contains_s t "holy saturday" ||
    contains_s t "holy week"

/-- `_is_ascension`. -/
def is_ascension (title : String) : Bool :=
  contains_s (py_lower title) "ascension"

/-- `_is_trinity_sunday`. -/
def is_trinity_sunday (title : String) : Bool :=
  contains_s (py_lower title) "trinity"

/-- `_get_proper_preface_key`: (key, options, prompt). -/
def get_proper_preface_key (title season : String) :
    String × List String × Bool :=
  if is_trinity_sunday title then ("trinity", [], false)
  else if is_ascension title then ("ascension", [], false)
  else if is_holy_week title then ("holy_week", [], false)
  else if season = "advent" then ("advent", [], false)
  else if season = "christmas" then ("incarnation", [], false)
  else if season = "epiphany" then ("epiphany", [], false)
  else if season = "lent" then ("lent", ["option_1", "option_2"], true)
  else if season = "easter" then ("easter", [], false)
  else if season = "pentecost_day" then ("pentecost", [], false)
  else ("lords_day",
        ["of_god_the_father", "of_god_the_son", "of_god_the_holy_spirit"], true)

/-- The fixed opening acclamation pairs. -/
def ACCLAMATION_STANDARD : String × String :=
  ("Blessed be God: {cross} Father, Son, and Holy Spirit.",
   "And blessed be his kingdom, now and for ever. Amen.")

/-- Lenten acclamation. -/
def ACCLAMATION_LENT : String × String :=
  ("Bless the Lord who forgives all our sins.", "His mercy endures forever.")

/-- Easter acclamation. -/
def ACCLAMATION_EASTER : String × String :=
  ("Alleluia. Christ is risen.", "The Lord is risen indeed. Alleluia.")

/-- Fraction anthem dialogue with alleluias. -/
def FRACTION_ALLELUIA : String × String :=
  ("Alleluia. Christ our Passover is sacrificed for us;",
   "Therefore let us keep the feast. Alleluia.")

/-- Fraction anthem dialogue without alleluias. -/
def FRACTION_NO_ALLELUIA : String × String :=
  ("Christ our Passover is sacrificed for us;",
   "Therefore let us keep the feast.")

/-- The `SeasonalRules` dataclass. -/
structure SeasonalRules where
  use_penitential_order : Bool
  use_decalogue : Bool
  confession_before_word : Bool
  no_confession_after_pop : Bool
  include_collect_for_purity : Bool
  acclamation_celebrant : String
  acclamation_people : String
  song_of_praise_label : String
  is_advent : Bool
  use_fraction_anthem : Bool
  fraction_celebrant : String
  fraction_people : String
  use_prayer_over_people : Bool
  blessing_label : String
  dismissal_has_alleluia : Bool
  pop_use_bcp_form_vi : Bool
  pop_has_confession : Bool
  season : String
  proper_preface_key : String
  proper_preface_options : List String
  prompt_preface : Bool
deriving DecidableEq, Repr

/-- `get_seasonal_rules` from `bulletin/logic/rules.py`. -/
def get_seasonal_rules (title color notes : String) (pop_form : String := "") :
    SeasonalRules :=
  let season := detect_season title color notes
  let is_lent := is_lent_season season
  let is_easter := is_in_easter_season season
  let is_advent := season = "advent"
  let use_penitential := is_lent
  let use_decalogue := is_lent && is_lent_1 title
  let acc :=
    if use_penitential then ACCLAMATION_LENT
    else if is_easter then ACCLAMATION_EASTER
    else ACCLAMATION_STANDARD
  let sop_label :=
    if is_lent then "Kyrie"
    else if is_advent then "Song of Praise and Lighting of the Advent Wreath"
    else "Song of Praise"
  let frac :=
    if is_lent then (true, "", "")
    else if is_easter then (false, FRACTION_ALLELUIA.1, FRACTION_ALLELUIA.2)
    else (false, FRACTION_NO_ALLELUIA.1, FRACTION_NO_ALLELUIA.2)
  let blessing :=
    if is_lent then (true, "Prayer over the People") else (false, "Blessing")
  let dismissal_alleluia := is_easter
  let pop_confession := pop_has_confession_fn pop_form notes
  let pop_use_bcp_vi := pop_confession
  let preface := get_proper_preface_key title season
  { use_penitential_order := use_penitential
    use_decalogue := use_decalogue
    confession_before_word := use_penitential
    no_confession_after_pop := use_penitential || pop_confession
    include_collect_for_purity := !use_penitential
    acclamation_celebrant := acc.1
    acclamation_people := acc.2
    song_of_praise_label := sop_label
    is_advent := is_advent
    use_fraction_anthem := frac.1
    fraction_celebrant := frac.2.1
    fraction_people := frac.2.2
    use_prayer_over_people := blessing.1
    blessing_label := blessing.2
    dismissal_has_alleluia := dismissal_alleluia
    pop_use_bcp_form_vi := pop_use_bcp_vi
    pop_has_confession := pop_confession
    season := season
    proper_preface_key := preface.1
    proper_preface_options := preface.2.1
    prompt_preface := preface.2.2 }

/-! ### Scripture verse tokenizer (`_split_verse_numbers`)

The marker pattern is
`(?:^|(?<=\s))(\d{1,3})\s(?=[A-Z‘“\'\"(\[])`: at start of string
or after a whitespace character, one to three digits, one whitespace
character (consumed), with an uppercase letter, opening quote or opening
bracket following (not consumed).  Because `\d{1,3}` backtracks only into
further digits, a match exists at a position exactly when the full digit
run there has length 1 to 3 and is followed by whitespace plus a trigger
character.
-/

/-- The lookahead class `[A-Z‘“\'\"(\[]`. -/
def is_trigger (c : Char) : Bool :=
  ('A' ≤ c && c ≤ 'Z') || c = '‘' || c = '“' || c = '\'' ||
    c = '"' || c = '(' || c = '['

/-- The `(?:^|(?<=\s))` alternative: `prev` is the character before the
current position in the original text (`none` at the start of the
string). -/
def boundary_ok : Option Char → Bool
  | none => true
  | some c => py_is_space c

/-- Whether a verse-number marker match begins exactly at the head of
`s`. -/
def match_ok (prev : Option Char) (s : List Char) : Bool :=
  boundary_ok prev &&
    (let ds := s.takeWhile Char.isDigit
     decide (1 ≤ ds.length) && decide (ds.length ≤ 3) &&
       (match s.drop ds.length with
        | w :: c :: _ => py_is_space w && is_trigger c
        | _ => false))

/-- The `finditer` scan of `_split_verse_numbers` together with its
segment assembly, fused: returns the text before the first match and the
list of `(digits, following text)` pairs, one per match.  The matched
whitespace separator is consumed; it becomes `prev` for the continuation
(the lookbehind inspects the original string).  `fuel` only bounds the
recursion and every call keeps `fuel ≥ s.length`, so it is never
exhausted. -/
def scan_aux : Nat → Option Char → List Char → List Char × List (List Char × List Char)
  | 0, _, _ => ([], [])
  | _ + 1, _, [] => ([], [])
  | fuel + 1, prev, c :: cs =>
    if match_ok prev (c :: cs) then
      let ds := (c :: cs).takeWhile Char.isDigit
      let step := scan_aux fuel ((c :: cs).drop ds.length).head?
        ((c :: cs).drop (ds.length + 1))
      ([], (ds, step.1) :: step.2)
    else
      let step := scan_aux fuel (some c) cs
      (c :: step.1, step.2)

/-- `_split_verse_numbers` from `bulletin/document/formatting.py`:
segments are `(verse number or none, text)`; a leading unnumbered segment
appears only when text precedes the first marker; with no match the whole
text is one unnumbered segment (also when it is empty). -/
def split_verse_numbers (s : List Char) : List (Option (List Char) × List Char) :=
  match scan_aux s.length none s with
  | (lead, []) => [(none, lead)]
  | (lead, ms) =>
    (if lead.isEmpty then [] else [(none, lead)]) ++
      ms.map fun p => (some p.1, p.2)

/-- Reassembly of a segment list: each numbered segment contributes its
marker digits, one space, then its text. -/
def reconstruct (segs : List (Option (List Char) × List Char)) : List Char :=
  (segs.map fun p =>
    match p.1 with
    | some d => d ++ ' ' :: p.2
    | none => p.2).flatten

/-- Reassembly of the match list of `scan_aux` alone. -/
def rebuild (ms : List (List Char × List Char)) : List Char :=
  (ms.map fun p => p.1 ++ ' ' :: p.2).flatten

/-! ### 9am music grid extractor (`bulletin/sources/music_9am.py`)

The grid is the parsed CSV export: a list of rows of string cells.
`datetime.strptime` is standard library behaviour, abstracted as a
parameter `strpt : format → cell text → Option D` over an abstract date
type `D`; `_parse_date` tries the three formats in order on the stripped
cell.
-/

/-- The `MusicSlot` dataclass. -/
structure MusicSlot where
  service_part : String
  song_title : String
  key : String
  lead : String
deriving DecidableEq, Repr

/-- The `ServiceMusic9am` dataclass over an abstract date type. -/
structure ServiceMusic9am (D : Type) where
  date : D
  liturgical_label : String
  slots : List MusicSlot

/-- The format strings `_parse_date` tries, in order. -/
def DATE_FORMATS : List String :=
  ["%Y-%m-%d", "%m/%d/%Y", "%m/%d/%y"]

/-- `_parse_date`: `None` for the empty string, otherwise the first format
accepted by `strptime` on the stripped text. -/
def parse_date {D : Type} (strpt : String → String → Option D)
    (date_str : String) : Option D :=
  if date_str = "" then none
  else first_some (DATE_FORMATS.map fun fmt => strpt fmt (py_strip_s date_str))

/-- Backtracking of `\s*` inside `re.search(r'-\s*(.+)')`: after the dash,
`\s*` first takes the whole whitespace run of length `k`, then gives back
one character at a time; the first start position whose character is not
a newline lets the greedy `.+` match the maximal non-newline run from
there. -/
def dash_try (t : List Char) : Nat → Option (List Char)
  | 0 =>
    match t with
    | c :: _ =>
      if c = '\n' then none else some (t.takeWhile fun x => ¬ x = '\n')
    | [] => none
  | k + 1 =>
    match t.drop (k + 1) with
    | c :: _ =>
      if c = '\n' then dash_try t k
      else some ((t.drop (k + 1)).takeWhile fun x => ¬ x = '\n')
    | [] => dash_try t k

/-- Whether `-\s*(.+)` matches with the dash at the head of `'-' :: t`,
and its group 1. -/
def dash_group (t : List Char) : Option (List Char) :=
  dash_try t (t.takeWhile py_is_space).length

/-- `re.search(r'-\s*(.+)', header_text)`: group 1 of the leftmost
match. -/
def dash_search : List Char → Option (List Char)
  | [] => none
  | c :: t =>
    if c = '-' then
      match dash_group t with
      | some g => some g
      | none => dash_search t
    else dash_search t

/-- The data-row loop of `_parse_sub_table` over the row indices
`range(header_row + 2, min(header_row + 20, len(all_rows)))`: stop at a
short row or an empty service-part cell, skip repeated header rows,
include a slot only when a song is assigned. -/
def collect_slots (grid : List (List String)) (co : Nat) :
    List Nat → List MusicSlot
  | [] => []
  | i :: rest =>
    let row := grid.getD i []
    if row.length ≤ co then []
    else
      let part := py_strip_s (row.getD co "")
      let song := py_strip_s (row.getD (co + 1) "")
      let key := py_strip_s (row.getD (co + 2) "")
      let lead := py_strip_s (row.getD (co + 3) "")
      if part = "" then []
      else if starts_s (py_lower part) "service part" then
        collect_slots grid co rest
      else
        let part_clean :=
          py_strip_s (String.mk (py_rstrip (fun c => c = ':') part.data))
        if song = "" then collect_slots grid co rest
        else ⟨part_clean, song, key, lead⟩ :: collect_slots grid co rest

/-- `_parse_sub_table`: `none` models the `return None` paths (date cell
beyond the row, or blank/unparseable date); the label defaults to the
empty string when the dash pattern finds nothing. -/
def parse_sub_table {D : Type} (strpt : String → String → Option D)
    (grid : List (List String)) (header_row col_offset : Nat) :
    Option (ServiceMusic9am D) :=
  let hrow := grid.getD header_row []
  let date_col := col_offset + 3
  if hrow.length ≤ date_col then none
  else
    match parse_date strpt (py_strip_s (hrow.getD date_col "")) with
    | none => none
    | some d =>
      let lit_label :=
        if header_row + 1 < grid.length then
          let row2 := grid.getD (header_row + 1) []
          let song_col := col_offset + 1
          if song_col < row2.length then
            match dash_search (py_strip_s (row2.getD song_col "")).data with
            | some g => py_strip_s (String.mk g)
            | none => ""
          else ""
        else ""
      let idxs := List.range' (header_row + 2)
        (min (header_row + 20) grid.length - (header_row + 2))
      some ⟨d, lit_label, collect_slots grid col_offset idxs⟩

/-- `_find_sub_tables`: scan every row at the three fixed column offsets
for the marker prefix and keep every panel that parses. -/
def find_sub_tables {D : Type} (strpt : String → String → Option D)
    (grid : List (List String)) : List (ServiceMusic9am D) :=
  (grid.enum.map fun rp =>
    [0, 5, 10].filterMap fun co =>
      if co < rp.2.length ∧
          starts_s (py_strip_s (rp.2.getD co "")) "Service Planner:" then
        parse_sub_table strpt grid rp.1 co
      else none).flatten

/-- The positions at which the marker scan of `_find_sub_tables` fires:
used to state that panels are extracted independently. -/
def marker_positions (grid : List (List String)) : List (Nat × Nat) :=
  (grid.enum.map fun rp =>
    [0, 5, 10].filterMap fun co =>
      if co < rp.2.length ∧
          starts_s (py_strip_s (rp.2.getD co "")) "Service Planner:" then
        some (rp.1, co)
      else none).flatten

/-- Fixture `strptime`: accepts exactly one date string in the ISO format,
mapping it to day number 7. -/
def strpt0 : String → String → Option Nat := fun fmt s =>
  if fmt = "%Y-%m-%d" ∧ s = "2026-02-15" then some 7 else none

/-- Fixture grid: two panels on the marker row; the first has a blank date
cell, the second a valid date, a labelled song header and an empty first
data row. -/
def grid0 : List (List String) :=
  [["Service Planner: This Week", "", "", "", "",
    "Service Planner: Next Week", "", "", "2026-02-15"],
   ["", "", "", "", "", "", "Song (9 am) - Lent 1A", "", ""],
   ["x", "", "", "", "", "", "", "", ""]]

/-! ## Helper lemmas -/

theorem starts_list_iff (p t : List Char) :
    starts_list p t = true ↔ ∃ r, t = p ++ r := by
  induction p generalizing t with
  | nil => simp [starts_list]
  | cons a as ih =>
    cases t with
    | nil => simp [starts_list]
    | cons b bs =>
      simp only [starts_list, Bool.and_eq_true, beq_iff_eq, ih, List.cons_append,
        List.cons.injEq]
      constructor
      · rintro ⟨hab, r, hr⟩
        exact ⟨r, hab.symm, hr⟩
      · rintro ⟨r, hab, hr⟩
        exact ⟨hab.symm, r, hr⟩

theorem digit_not_space (c : Char) (h : c.isDigit = true) : py_is_space c = false := by
  by_contra hc
  rw [Bool.not_eq_false] at hc
  unfold py_is_space at hc
  simp only [Bool.or_eq_true, decide_eq_true_eq] at hc
  rcases hc with ((((h1 | h1) | h1) | h1) | h1) | h1 <;> subst h1 <;>
    exact absurd h (by decide)

/-- The shape accepted by `header_after`: nonempty whitespace, nonempty
digits, anything after. -/
def AfterShape (rest : List Char) : Prop :=
  ∃ w d r, rest = w ++ d ++ r ∧ w ≠ [] ∧ (∀ c ∈ w, py_is_space c = true) ∧
    d ≠ [] ∧ (∀ c ∈ d, c.isDigit = true)

theorem header_after_some_iff (rest : List Char) :
    (header_after rest).isSome = true ↔ AfterShape rest := by
  constructor
  · intro h
    unfold header_after at h
    by_cases h1 : (rest.takeWhile py_is_space).isEmpty
    · simp [h1] at h
    · by_cases h2 : ((rest.dropWhile py_is_space).takeWhile Char.isDigit).isEmpty
      · simp [h1, h2] at h
      · refine ⟨rest.takeWhile py_is_space,
          (rest.dropWhile py_is_space).takeWhile Char.isDigit,
          (rest.dropWhile py_is_space).dropWhile Char.isDigit, ?_, ?_, ?_, ?_, ?_⟩
        · rw [List.append_assoc, List.takeWhile_append_dropWhile,
            List.takeWhile_append_dropWhile]
        · simpa [List.isEmpty_iff] using h1
        · exact fun c hc => List.mem_takeWhile_imp hc
        · simpa [List.isEmpty_iff] using h2
        · exact fun c hc => List.mem_takeWhile_imp hc
  · rintro ⟨w, d, r, hE, hw, hws, hd, hds⟩
    subst hE
    obtain ⟨cw, w', hw'⟩ := List.exists_cons_of_ne_nil hw
    obtain ⟨cd, d', hd'⟩ := List.exists_cons_of_ne_nil hd
    have hspace : ∀ c ∈ w, py_is_space c := hws
    have h1 : ((w ++ d ++ r).takeWhile py_is_space).isEmpty = false := by
      rw [List.append_assoc, List.takeWhile_append_of_pos hspace]
      simp [hw]
    have hdropw : (w ++ d ++ r).dropWhile py_is_space = d ++ r := by
      rw [List.append_assoc, List.dropWhile_append_of_pos hspace]
      subst hd'
      rw [List.cons_append,
        List.dropWhile_cons_of_neg (by simp [digit_not_space cd (hds cd (by simp))])]
    have h2 : (((w ++ d ++ r).dropWhile py_is_space).takeWhile Char.isDigit).isEmpty
        = false := by
      rw [hdropw]
      subst hd'
      rw [List.cons_append, List.takeWhile_cons_of_pos (hds cd (by simp))]
      simp
    unfold header_after
    rw [if_neg (by rw [h1]; simp), if_neg (by rw [h2]; simp)]
    split <;> simp

theorem header_some_iff (t : List Char) :
    (match_psalm_header t).isSome = true ↔ HeaderShape t := by
  unfold match_psalm_header
  by_cases hs : starts_list "Psalm".data t
  · obtain ⟨rest, hrest⟩ := (starts_list_iff _ _).mp hs
    subst hrest
    have hdrop : ("Psalm".data ++ rest).drop 5 = rest :=
      List.drop_left' (by rfl)
    rw [if_pos hs, hdrop, header_after_some_iff]
    constructor
    · rintro ⟨w, d, r, hE, hw, hws, hd, hds⟩
      exact ⟨w, d, r, by rw [hE]; simp, hw, hws, hd, hds⟩
    · rintro ⟨w, d, r, hE, hw, hws, hd, hds⟩
      have hrw : rest = w ++ d ++ r := by
        have h' : "Psalm".data ++ rest = "Psalm".data ++ (w ++ (d ++ r)) := by
          rw [hE]; simp [List.append_assoc]
        have h5 := List.append_cancel_left h'
        rw [h5, ← List.append_assoc]
      exact ⟨w, d, r, hrw, hw, hws, hd, hds⟩
  · rw [if_neg hs]
    simp only [Option.isSome_none, Bool.false_eq_true, false_iff]
    rintro ⟨w, d, r, hE, _⟩
    exact hs ((starts_list_iff _ _).mpr ⟨w ++ d ++ r, by rw [hE]; simp⟩)

theorem parse_core_none_iff (cleaned : String) :
    parse_reference_core cleaned = none ↔
      ¬ HeaderShape (py_strip cleaned.data) := by
  rw [← header_some_iff]
  unfold parse_reference_core
  rcases h : match_psalm_header (py_strip cleaned.data) with _ | ⟨ds, vp⟩
  · simp
  · rcases vp with _ | vp <;> simp

/-! ## Claim C1 -/

/-- C1: it is claimed that, after rubric stripping, `parse_psalm_reference`
raises exactly when the remaining string fails the grammar
`Psalm <integer 1 to 150>[:<verse-spec>]`, a psalm number outside 1 to 150
failing the parse.  The code never range-checks the psalm number:
`"Psalm 151"` parses without error to psalm 151 with the empty verse-spec
list. -/
theorem c1_counterexample : parse_psalm_reference "Psalm 151" = some (151, []) := by
  decide

/-- C1 (amended): after stripping the trailing rubric clause,
`parse_psalm_reference` raises a `ParseError` (modelled `none`) exactly
when the stripped-and-trimmed remainder does not begin with the literal
`Psalm`, one or more whitespace characters and one or more digits.  The
psalm number is not checked against the range 1 to 150, and verse-spec
segments matching neither range nor single-verse grammar are skipped
silently instead of failing. -/
theorem c1_parse_failure_iff (reference : String) :
    parse_psalm_reference reference = none ↔
      ¬ HeaderShape (py_strip (strip_rubric reference).data) := by
  unfold parse_psalm_reference
  exact parse_core_none_iff (strip_rubric reference)

/-- C1 witness: a concrete failing parse, obtained through the amended
theorem. -/
theorem c1_witness : ¬ HeaderShape (py_strip (strip_rubric "Psalmody").data) :=
  (c1_parse_failure_iff "Psalmody").mp (by decide)

/-! ## Claim C2 -/

/-- C2: it is claimed that with the alleluia flag the trailing period of
each dismissal line is replaced by `", alleluia, alleluia."`.  The code
instead appends `". Alleluia, alleluia."` (sentence period and capital
letter), so dismissal 1 does not produce the claimed text. -/
theorem c2_counterexample :
    get_dismissal_text "1" true ≠
      ("Let us go forth in the name of Christ, alleluia, alleluia.",
       "Thanks be to God, alleluia, alleluia.") := by
  decide

/-- C2 (amended): for every dismissal number (unknown numbers fall back to
dismissal 3), the flag set to false returns the base line pair unchanged,
and the flag set to true returns each base line with its single trailing
period replaced by `". Alleluia, alleluia."` (every base line of the
table ends in exactly one period, so stripping trailing periods and
appending is the same as replacing the final period). -/
theorem c2_dismissal_text (num : String) :
    get_dismissal_text num false = (List.lookup num DISMISSALS).getD dismissal3 ∧
    get_dismissal_text num true =
      (replace_trailing_period
        ((List.lookup num DISMISSALS).getD dismissal3).1 ". Alleluia, alleluia.",
       replace_trailing_period
        ((List.lookup num DISMISSALS).getD dismissal3).2 ". Alleluia, alleluia.") := by
  refine ⟨rfl, ?_⟩
  by_cases h1 : num = "1"
  · subst h1; decide
  by_cases h2 : num = "2"
  · subst h2; decide
  by_cases h3 : num = "3"
  · subst h3; decide
  by_cases h4 : num = "4"
  · subst h4; decide
  have e1 : (num == "1") = false := beq_eq_false_iff_ne.mpr h1
  have e2 : (num == "2") = false := beq_eq_false_iff_ne.mpr h2
  have e3 : (num == "3") = false := beq_eq_false_iff_ne.mpr h3
  have e4 : (num == "4") = false := beq_eq_false_iff_ne.mpr h4
  simp only [get_dismissal_text, DISMISSALS, List.lookup, e1, e2, e3, e4]
  decide

/-! ## Claim C3 -/

theorem select_verses_eq_filterMap (verses : List (Nat × PsalmVerseData))
    (specs : List (Nat × Option Char)) :
    select_verses verses specs =
      specs.filterMap fun p =>
        (lookup_verse verses p.1).map fun v => render_verse p.1 p.2 v := by
  induction specs with
  | nil => rfl
  | cons p rest ih =>
    obtain ⟨vnum, sfx⟩ := p
    rcases h : lookup_verse verses vnum with _ | v <;>
      simp [select_verses, h, ih]

/-- C3: it is claimed that a lookup miss for a verse number or a psalm
number is non-fatal.  A missing psalm number is in fact fatal: on a corpus
without psalm 23, the syntactically valid citation `"Psalm 23"` makes
`get_psalm` raise a `ValueError` (modelled `none`) instead of yielding a
partial or empty verse list. -/
theorem c3_counterexample : get_psalm empty_corpus "Psalm 23" = none := by
  decide

/-- C3 (amended): verse-number lookup misses are non-fatal: whenever the
citation parses and its psalm number is present in the corpus, `get_psalm`
succeeds, and the selected verses are exactly the requested specs filtered
through the corpus, each individually missing verse number silently
skipped.  A psalm number absent from the corpus, however, raises a
`ValueError`. -/
theorem c3_lookup_miss (corpus : Nat → Option PsalmData) (ref : String)
    (num : Nat) (specs : List (Nat × Option Char)) (pd : PsalmData)
    (hp : parse_psalm_reference ref = some (num, specs))
    (hc : corpus num = some pd) :
    (get_psalm corpus ref).isSome = true ∧
    (specs ≠ [] → get_psalm corpus ref =
      some ⟨num, pd.latin,
        specs.filterMap fun p =>
          (lookup_verse pd.verses p.1).map fun v => render_verse p.1 p.2 v⟩) := by
  constructor
  · simp [get_psalm, hp, hc]
  · intro hs
    have he : specs.isEmpty = false := by simpa using hs
    simp [get_psalm, hp, hc, he, select_verses_eq_filterMap]

/-- C3 witness: on the fixture corpus holding only verse 1 of psalm 23,
the citation `"Psalm 23:1-2"` succeeds and verse 2 is skipped silently. -/
theorem c3_witness :
    (get_psalm corpus23 "Psalm 23:1-2").isSome = true ∧
    get_psalm corpus23 "Psalm 23:1-2" =
      some ⟨23, "Dominus regit me",
        [((1 : Nat), (none : Option Char)), (2, none)].filterMap fun p =>
          (lookup_verse [(1, ⟨"The LORD is my shepherd;", ["I shall not be in want."]⟩)]
            p.1).map fun v => render_verse p.1 p.2 v⟩ := by
  have h := c3_lookup_miss corpus23 "Psalm 23:1-2" 23 [(1, none), (2, none)]
    ⟨"Dominus regit me", [(1, ⟨"The LORD is my shepherd;", ["I shall not be in want."]⟩)]⟩
    (by decide) (by decide)
  exact ⟨h.1, h.2 (by decide)⟩

/-! ## Claim C4 -/

theorem first_rule_mem (t dflt : String) (table : List ((String → Bool) × String))
    (hd : dflt ∈ season_tags) (ht : ∀ pr ∈ table, pr.2 ∈ season_tags) :
    first_rule t table dflt ∈ season_tags := by
  induction table with
  | nil => exact hd
  | cons pr rest ih =>
    obtain ⟨p, r⟩ := pr
    by_cases hp : p t
    · simpa [first_rule, hp] using ht (p, r) (by simp)
    · simpa [first_rule, hp] using ih fun q hq => ht q (by simp [hq])

/-- C4: the season classifier is a total function of title and color (the
notes argument is ignored): it equals the ordered keyword rule table of
the spec, evaluated with the stated precedence and falling back on the
color, and its result is always one of the seven season tags. -/
theorem c4_season_classifier (title color notes : String) :
    detect_season title color notes = season_spec title color ∧
    detect_season title color notes ∈ season_tags := by
  have h : detect_season title color notes = season_spec title color := rfl
  refine ⟨h, ?_⟩
  rw [h]
  unfold season_spec
  apply first_rule_mem
  · unfold color_fallback
    split
    · simp [season_tags]
    · split <;> simp [season_tags]
  · intro pr hpr
    simp only [season_rule_table, List.mem_cons, List.not_mem_nil, or_false] at hpr
    rcases hpr with h' | h' | h' | h' | h' | h' | h' | h' | h' | h' | h' | h' | h' | h' <;>
      rw [h'] <;> simp [season_tags]

/-! ## Claim C5 -/

/-- C5: a range segment with start at most end expands to every integer of
the closed interval in order; only the first element can carry the start
suffix, only the last the end suffix, and interior elements carry none.
The two expansions given by the spec are reproduced exactly through the
segment parser. -/
theorem c5_range_expansion :
    (∀ st s1 en s2, st ≤ en →
      (expand_range st s1 en s2).length = en - st + 1 ∧
      (∀ i, i < en - st + 1 →
        (expand_range st (s1 : Option Char) en s2)[i]? =
          some (st + i,
            if st + i = st ∧ s1.isSome then s1
            else if st + i = en ∧ s2.isSome then s2
            else none))) ∧
    parse_verse_part "1-3".data = [(1, none), (2, none), (3, none)] ∧
    parse_verse_part "1a-3c".data = [(1, some 'a'), (2, none), (3, some 'c')] := by
  refine ⟨?_, by decide, by decide⟩
  intro st s1 en s2 h
  constructor
  · simp only [expand_range, List.length_map, List.length_range']
    omega
  · intro i hi
    have hr : (List.range' st (en + 1 - st))[i]? = some (st + i) := by
      rw [List.getElem?_range' st 1 (by omega)]
      simp
    simp [expand_range, List.getElem?_map, hr]

/-- C5 witness: the range 1a-3c instantiated at the middle index through
the theorem. -/
theorem c5_witness :
    (expand_range 1 (some 'a') 3 (some 'c')).length = 3 - 1 + 1 ∧
    (expand_range 1 (some 'a') 3 (some 'c'))[1]? =
      some (1 + 1,
        if 1 + 1 = 1 ∧ (some 'a').isSome then some 'a'
        else if 1 + 1 = 3 ∧ (some 'c').isSome then some 'c'
        else none) :=
  ⟨(c5_range_expansion.1 1 (some 'a') 3 (some 'c') (by decide)).1,
   (c5_range_expansion.1 1 (some 'a') 3 (some 'c') (by decide)).2 1 (by decide)⟩

/-! ## Claim C6 -/

/-- C6: for a verse present in the corpus, the selection loop of
`get_psalm` renders it by suffix: no suffix keeps the first half and all
second-half lines; `a` keeps the first half with no second-half lines;
`b` keeps exactly the first second-half line (none when there is none);
`c` keeps all second-half lines but the first, or all of them when there
is exactly one. -/
theorem c6_suffix_semantics (verses : List (Nat × PsalmVerseData)) (vnum : Nat)
    (v : PsalmVerseData) (h : lookup_verse verses vnum = some v) :
    select_verses verses [(vnum, none)] = [⟨vnum, v.first_half, v.second_half⟩] ∧
    select_verses verses [(vnum, some 'a')] = [⟨vnum, v.first_half, []⟩] ∧
    select_verses verses [(vnum, some 'b')] =
      [⟨vnum, "", match v.second_half with | [] => [] | l :: _ => [l]⟩] ∧
    select_verses verses [(vnum, some 'c')] =
      [⟨vnum, "", if v.second_half.length = 1 then v.second_half
                  else v.second_half.drop 1⟩] := by
  refine ⟨?_, ?_, ?_, ?_⟩ <;> simp only [select_verses, h, render_verse]
  · simp [render_verse]
  · simp [render_verse]
  · rcases v.second_half with _ | ⟨a, t⟩ <;> simp [render_verse]
  · rcases hsh : v.second_half with _ | ⟨a, _ | ⟨b, t⟩⟩ <;> simp [render_verse, hsh]

/-- C6 witness: a two-line verse rendered with suffix c through the
theorem. -/
theorem c6_witness :
    select_verses [(1, ⟨"fh", ["s1", "s2"]⟩)] [(1, some 'c')] =
      [⟨1, "", if (["s1", "s2"] : List String).length = 1 then ["s1", "s2"]
               else (["s1", "s2"] : List String).drop 1⟩] :=
  (c6_suffix_semantics [(1, ⟨"fh", ["s1", "s2"]⟩)] 1 ⟨"fh", ["s1", "s2"]⟩
    (by decide)).2.2.2

/-! ## Claim C7 -/

/-- C7: for every input, the rules record satisfies the seasonal
invariants: the lent season forces the Collect for Purity off and the
fraction anthem on, and the Easter season (easter or pentecost day)
forces the alleluia dismissal. -/
theorem c7_seasonal_invariants (title color notes pop_form : String) :
    ((get_seasonal_rules title color notes pop_form).season = "lent" →
      (get_seasonal_rules title color notes pop_form).include_collect_for_purity
          = false ∧
      (get_seasonal_rules title color notes pop_form).use_fraction_anthem = true) ∧
    ((get_seasonal_rules title color notes pop_form).season = "easter" ∨
        (get_seasonal_rules title color notes pop_form).season = "pentecost_day" →
      (get_seasonal_rules title color notes pop_form).dismissal_has_alleluia
          = true) := by
  constructor
  · intro h
    simp only [get_seasonal_rules] at h ⊢
    simp [is_lent_season, h]
  · intro h
    simp only [get_seasonal_rules] at h ⊢
    rcases h with h | h <;> simp [is_in_easter_season, is_lent_season, h]

/-- C7 witness: a Lent Sunday and Easter Day instantiation of the
invariants. -/
theorem c7_witness :
    (get_seasonal_rules "Third Sunday in Lent" "Violet" "" "").include_collect_for_purity
        = false ∧
    (get_seasonal_rules "Third Sunday in Lent" "Violet" "" "").use_fraction_anthem
        = true ∧
    (get_seasonal_rules "Easter Day" "White" "" "").dismissal_has_alleluia = true :=
  ⟨((c7_seasonal_invariants "Third Sunday in Lent" "Violet" "" "").1 (by decide)).1,
   ((c7_seasonal_invariants "Third Sunday in Lent" "Violet" "" "").1 (by decide)).2,
   (c7_seasonal_invariants "Easter Day" "White" "" "").2 (Or.inl (by decide))⟩

/-! ## Claim C8 -/

theorem reconstruct_append (xs ys : List (Option (List Char) × List Char)) :
    reconstruct (xs ++ ys) = reconstruct xs ++ reconstruct ys := by
  simp [reconstruct]

theorem reconstruct_marked (ms : List (List Char × List Char)) :
    reconstruct (ms.map fun p => (some p.1, p.2)) = rebuild ms := by
  simp [reconstruct, rebuild, List.map_map]
  rfl

theorem scan_aux_reconstruct (fuel : Nat) :
    ∀ (prev : Option Char) (s : List Char), s.length ≤ fuel →
      (∀ c ∈ s, py_is_space c = true → c = ' ') →
      (scan_aux fuel prev s).1 ++ rebuild (scan_aux fuel prev s).2 = s := by
  induction fuel with
  | zero =>
    intro prev s hf _
    have hs : s = [] := by
      cases s with
      | nil => rfl
      | cons a t => simp at hf
    subst hs
    simp [scan_aux, rebuild]
  | succ fuel ih =>
    intro prev s hf hsp
    cases s with
    | nil => simp [scan_aux, rebuild]
    | cons c cs =>
      by_cases hm : match_ok prev (c :: cs) = true
      · have hm' := hm
        unfold match_ok at hm'
        simp only [Bool.and_eq_true, decide_eq_true_eq] at hm'
        obtain ⟨hb, ⟨hlen1, hlen3⟩, hc⟩ := hm'
        rcases hdrop : (c :: cs).drop ((c :: cs).takeWhile Char.isDigit).length
          with _ | ⟨w, rest2⟩
        · rw [hdrop] at hc; simp at hc
        rcases rest2 with _ | ⟨c2, t2⟩
        · rw [hdrop] at hc; simp at hc
        rw [hdrop] at hc
        simp only [Bool.and_eq_true] at hc
        obtain ⟨hw, _⟩ := hc
        obtain ⟨t', ht'⟩ := List.takeWhile_prefix (l := c :: cs) Char.isDigit
        have hdt := List.drop_left ((c :: cs).takeWhile Char.isDigit) t'
        rw [ht'] at hdt
        have ht2 : t' = w :: c2 :: t2 := by rw [← hdt, hdrop]
        have hsplit : (c :: cs).takeWhile Char.isDigit ++ w :: c2 :: t2 = c :: cs := by
          rw [← ht2]; exact ht'
        have hw' : w = ' ' := hsp w
          (by rw [← hsplit]
              exact List.mem_append_right _ (List.mem_cons_self w _)) hw
        have hdd : (c :: cs).drop (((c :: cs).takeWhile Char.isDigit).length + 1)
            = c2 :: t2 := by
          rw [← List.drop_drop, hdrop]
          rfl
        have hhead :
            ((c :: cs).drop ((c :: cs).takeWhile Char.isDigit).length).head?
              = some w := by
          rw [hdrop]; rfl
        have hlent2 : (c2 :: t2).length ≤ fuel := by
          have hl := congrArg List.length hsplit
          simp only [List.length_append, List.length_cons] at hl hf ⊢
          omega
        have recon := ih (some w) (c2 :: t2) hlent2
          (fun c' h' hsp' => hsp c'
            (by rw [← hsplit]
                exact List.mem_append_right _ (List.mem_cons_of_mem w h')) hsp')
        have key : (c :: cs).takeWhile Char.isDigit ++ ' ' ::
            ((scan_aux fuel (some w) (c2 :: t2)).1 ++
              rebuild (scan_aux fuel (some w) (c2 :: t2)).2) = c :: cs := by
          rw [recon, ← hw']
          exact hsplit
        simp only [scan_aux, if_pos hm, hhead, hdd]
        simp only [rebuild, List.map_cons, List.flatten_cons, List.nil_append]
        rw [List.append_assoc, List.cons_append]
        exact key
      · have hlcs : cs.length ≤ fuel := by simp at hf; omega
        have recon := ih (some c) cs hlcs
          (fun c' h' hsp' => hsp c' (by simp [h']) hsp')
        simp only [scan_aux, if_neg hm]
        simpa using recon

/-- C8: it is claimed that concatenating the segment texts, reinserting
each marker and one space, reproduces the passage exactly for every
input.  The consumed disambiguating whitespace can be any whitespace
character, and it is restored as a plain space: on `"1\nGo"` the
reconstruction yields `"1 Go"`, not the original passage. -/
theorem c8_counterexample :
    reconstruct (split_verse_numbers "1\nGo".data) ≠ "1\nGo".data := by
  decide

/-- C8 (amended): the segment list is a concatenation-preserving
decomposition up to the identity of the consumed whitespace: whenever
every whitespace character of the passage is a plain space (space is the
only separator ever consumed then), concatenating all segment texts in
order with the markers and one space reinserted at each marker boundary
reproduces the original passage exactly. -/
theorem c8_concat_reconstruction (s : List Char)
    (hsp : ∀ c ∈ s, py_is_space c = true → c = ' ') :
    reconstruct (split_verse_numbers s) = s := by
  have h := scan_aux_reconstruct s.length none s (Nat.le_refl _) hsp
  unfold split_verse_numbers
  rcases hscan : scan_aux s.length none s with ⟨lead, ms⟩
  rw [hscan] at h
  cases ms with
  | nil =>
    simpa [reconstruct, rebuild] using h
  | cons m ms' =>
    rw [reconstruct_append, reconstruct_marked]
    by_cases hl : lead.isEmpty
    · have : lead = [] := by simpa [List.isEmpty_iff] using hl
      subst this
      simpa [reconstruct] using h
    · rw [if_neg hl]
      simpa [reconstruct] using h

/-- C8 witness: a plain-space passage reconstructs exactly. -/
theorem c8_witness : reconstruct (split_verse_numbers "1 Go".data) = "1 Go".data :=
  c8_concat_reconstruction "1 Go".data (by decide)

/-! ## Claim C9 -/

/-- C9: it is claimed that the example passage tokenizes to segments whose
first text is `"From Mount Hor they set out."`.  The lookbehind of the
marker pattern does not consume the whitespace preceding a verse number,
so the first segment keeps its trailing space and the claimed segment
list is not produced. -/
theorem c9_counterexample :
    split_verse_numbers "4 From Mount Hor they set out. 5 The people spoke.".data ≠
      [(some "4".data, "From Mount Hor they set out.".data),
       (some "5".data, "The people spoke.".data)] := by
  decide

/-- C9 (amended): the example passage tokenizes to exactly two numbered
segments, the first text carrying the trailing space that precedes the
second marker: `[("4", "From Mount Hor they set out. "),
("5", "The people spoke.")]`. -/
theorem c9_example_segments :
    split_verse_numbers "4 From Mount Hor they set out. 5 The people spoke.".data =
      [(some "4".data, "From Mount Hor they set out. ".data),
       (some "5".data, "The people spoke.".data)] := by
  decide

/-! ## Claim C10 -/

/-- C10: panel failures are isolated.  A panel whose date cell is blank or
unparseable (or missing from its row) is excluded by returning `none`
rather than raising; a panel with a valid date whose first data row has an
empty service-part cell is extracted as a plan with zero slots; and the
grid scan is exactly an independent filter-map of the panel parser over
the marker positions, so one panel's failure cannot affect any other
panel. -/
theorem c10_grid_isolation (D : Type) (strpt : String → String → Option D)
    (grid : List (List String)) (hr co : Nat) :
    (parse_date strpt (py_strip_s ((grid.getD hr []).getD (co + 3) "")) = none →
      parse_sub_table strpt grid hr co = none) ∧
    ((grid.getD hr []).length ≤ co + 3 →
      parse_sub_table strpt grid hr co = none) ∧
    (∀ d, parse_date strpt (py_strip_s ((grid.getD hr []).getD (co + 3) "")) = some d →
      co + 3 < (grid.getD hr []).length →
      py_strip_s ((grid.getD (hr + 2) []).getD co "") = "" →
      ∃ st, parse_sub_table strpt grid hr co = some st ∧ st.slots = [] ∧ st.date = d) ∧
    find_sub_tables strpt grid =
      (marker_positions grid).filterMap fun p => parse_sub_table strpt grid p.1 p.2 := by
  refine ⟨?_, ?_, ?_, ?_⟩
  · intro h
    unfold parse_sub_table
    by_cases hl : (grid.getD hr []).length ≤ co + 3
    · rw [if_pos hl]
    · rw [if_neg hl, h]
  · intro h
    unfold parse_sub_table
    rw [if_pos h]
  · intro d hd hlen hempty
    have hslots : collect_slots grid co
        (List.range' (hr + 2) (min (hr + 20) grid.length - (hr + 2))) = [] := by
      rcases hn : min (hr + 20) grid.length - (hr + 2) with _ | m
      · rfl
      · rw [List.range'_succ]
        simp only [collect_slots]
        by_cases hrl : (grid.getD (hr + 2) []).length ≤ co
        · rw [if_pos hrl]
        · rw [if_neg hrl, if_pos hempty]
    unfold parse_sub_table
    rw [if_neg (by omega), hd]
    exact ⟨_, rfl, hslots, rfl⟩
  · unfold find_sub_tables marker_positions
    rw [List.filterMap_flatten, List.map_map]
    congr 1
    apply List.map_congr_left
    intro rp _
    simp only [Function.comp]
    rw [List.filterMap_filterMap]
    apply List.filterMap_congr
    intro co' _
    by_cases hco : co' < rp.2.length ∧
        starts_s (py_strip_s (rp.2.getD co' "")) "Service Planner:" = true
    · rw [if_pos hco, if_pos hco]; rfl
    · rw [if_neg hco, if_neg hco]; rfl

/-- C10 witness: on the fixture grid the blank-date panel is excluded, the
valid panel with an empty first data row yields zero slots, and the scan
is the independent filter-map. -/
theorem c10_witness :
    parse_sub_table strpt0 grid0 0 0 = none ∧
    (∃ st, parse_sub_table strpt0 grid0 0 5 = some st ∧ st.slots = [] ∧ st.date = 7) ∧
    find_sub_tables strpt0 grid0 =
      (marker_positions grid0).filterMap fun p => parse_sub_table strpt0 grid0 p.1 p.2 :=
  ⟨(c10_grid_isolation Nat strpt0 grid0 0 0).1 (by decide),
   (c10_grid_isolation Nat strpt0 grid0 0 5).2.2.1 7 (by decide) (by decide) (by decide),
   (c10_grid_isolation Nat strpt0 grid0 0 0).2.2.2⟩

end Bulletin
